import Mathlib

/-!
Verification of the admin authentication and session-lifecycle component
(AdminAuthService) implemented in src/src/routes/index.tsx.

The component is embedded shallowly:

* A SessionRecord models one row of the admin_session table.  The
  server-managed bookkeeping columns (create_time, update_time, data_creator,
  data_updater) are not consulted by the auth logic and are omitted; the
  server-assigned opaque id is modelled as a Nat.
* AuthSt is the whole world the component can touch: the session-store table,
  the next server-assigned id, the browser localStorage slot holding the
  current token, a schedule of store failures (one Bool per store call, true
  meaning that call throws a store error), a schedule of tokens produced by
  the cryptographic random generator, and the current clock in milliseconds.
* AuthM is the effect monad: state passing over AuthSt together with an
  exception channel for thrown store errors.  The try/catch blocks of the
  source are modelled by AuthM.tryCatch, which keeps all state changes made
  before the throw, exactly as JavaScript does.
* The SHA-256 digest (an external collaborator, crypto.subtle) is modelled as
  an explicit function parameter hashPassword of authenticateAdmin, assumed
  deterministic exactly as the source assumes.
-/

/-- One row of the admin_session table as used by the auth component. -/
structure SessionRecord where
  id : Nat
  session_token : String
  expires_at : String
  user_id : String
deriving DecidableEq

/-- The state visible to the component: session store, server id counter,
localStorage slot, store-failure schedule, random-token schedule, clock. -/
structure AuthSt where
  store : List SessionRecord
  nextId : Nat
  slot : Option String
  fails : List Bool
  tokens : List String
  nowMs : Nat
deriving DecidableEq

/-- Effect monad of the component: state over AuthSt with a thrown-store-error
channel.  A computation returns its result (or the error) together with the
state at the moment it finished (or threw). -/
def AuthM (α : Type) := AuthSt → Except Unit α × AuthSt

def AuthM.pure (a : α) : AuthM α := fun s => (Except.ok a, s)

def AuthM.bind (m : AuthM α) (f : α → AuthM β) : AuthM β := fun s =>
  match m s with
  | (Except.ok a, s₁) => f a s₁
  | (Except.error e, s₁) => (Except.error e, s₁)

instance : Monad AuthM where
  pure := AuthM.pure
  bind := AuthM.bind

/-- JavaScript try/catch: state mutated before the throw is kept, the handler
runs from the state at the moment of the throw. -/
def AuthM.tryCatch (m : AuthM α) (h : Unit → AuthM α) : AuthM α := fun s =>
  match m s with
  | (Except.error e, s₁) => h e s₁
  | r => r

/-! ### Primitive effects -/

/-- localStorage.getItem(SESSION_TOKEN_KEY). -/
def getSlot : AuthM (Option String) := fun s => (Except.ok s.slot, s)

/-- localStorage.setItem(SESSION_TOKEN_KEY, v). -/
def setSlot (v : String) : AuthM Unit := fun s => (Except.ok (), { s with slot := some v })

/-- localStorage.removeItem(SESSION_TOKEN_KEY). -/
def clearSlot : AuthM Unit := fun s => (Except.ok (), { s with slot := none })

def readStore : AuthM (List SessionRecord) := fun s => (Except.ok s.store, s)

/-- Date.now(). -/
def readNowMs : AuthM Nat := fun s => (Except.ok s.nowMs, s)

/-- Consume the next entry of the store-failure schedule (an exhausted
schedule means no further failures). -/
def popFail : AuthM Bool := fun s =>
  match s.fails with
  | [] => (Except.ok false, s)
  | b :: rest => (Except.ok b, { s with fails := rest })

/-- A thrown store error. -/
def throwStore : AuthM α := fun s => (Except.error (), s)

/-- Every store call first consults the failure schedule and throws when the
schedule says so. -/
def stepFail : AuthM Unit := do
  let b ← popFail
  if b then throwStore else pure ()

def appendRecord (r : SessionRecord) : AuthM Unit := fun s =>
  (Except.ok (), { s with
    store := s.store ++ [{ r with id := s.nextId }],
    nextId := s.nextId + 1 })

def removeById (i : Nat) : AuthM Unit := fun s =>
  (Except.ok (), { s with store := s.store.filter fun r => !(r.id == i) })

def removeByToken (t : String) : AuthM Unit := fun s =>
  (Except.ok (), { s with store := s.store.filter fun r => !(r.session_token == t) })

/-- generateSessionToken (src/src/routes/index.tsx): a cryptographically
random 64-hex-character string, modelled by consuming the token schedule. -/
def generateSessionToken : AuthM String := fun s =>
  match s.tokens with
  | [] => (Except.ok "", s)
  | t :: rest => (Except.ok t, { s with tokens := rest })

/-! ### The SessionStore collaborator (AdminSessionORM)

The ORM itself is generated SDK code outside this repository; per the spec
(section 6) it provides per-call CRUD over session records, any call may fail
with a generic store error, and inserted records get a server-assigned id. -/

def getAdminSessionByUserId (uid : String) : AuthM (List SessionRecord) := do
  stepFail
  let db ← readStore
  pure (db.filter fun r => r.user_id == uid)

def getAdminSessionBySessionToken (t : String) : AuthM (List SessionRecord) := do
  stepFail
  let db ← readStore
  pure (db.filter fun r => r.session_token == t)

def getAllAdminSession : AuthM (List SessionRecord) := do
  stepFail
  readStore

/-- insertAdminSession with a single record; the server overrides the id. -/
def insertAdminSession (r : SessionRecord) : AuthM Unit := do
  stepFail
  appendRecord r

def deleteAdminSessionById (i : Nat) : AuthM Unit := do
  stepFail
  removeById i

def deleteAdminSessionBySessionToken (t : String) : AuthM Unit := do
  stepFail
  removeByToken t

/-! ### JavaScript modelling helpers -/

/-- Models String.prototype.trim as used by the blank-password check of
authenticateAdmin (whitespace stripped from both ends). -/
def jsTrim (s : String) : String :=
  ⟨((s.data.dropWhile Char.isWhitespace).reverse.dropWhile Char.isWhitespace).reverse⟩

/-- Numeric value of a decimal digit character. -/
def digitVal (c : Char) : Nat := c.toNat - 48

/-- Models JavaScript parseInt(s, 10): skip leading whitespace, optional
sign, read the longest run of decimal digits; none models NaN. -/
def jsParseInt (s : String) : Option Int :=
  let cs := s.data.dropWhile Char.isWhitespace
  let neg : Bool := cs.head? == some '-'
  let cs₂ := if cs.head? == some '-' || cs.head? == some '+' then cs.tail else cs
  let ds := cs₂.takeWhile Char.isDigit
  if ds.isEmpty then none
  else
    let v : Nat := ds.foldl (fun n c => 10 * n + digitVal c) 0
    some (if neg then -(v : Int) else (v : Int))

/-- Models the JavaScript comparison now > expiresAt where expiresAt may be
NaN: every comparison against NaN is false. -/
def jsGtB (now : Int) : Option Int → Bool
  | none => false
  | some v => decide (v < now)

/-- Decimal digit characters of n, most significant first, with explicit
fuel so that the definition is structural. -/
def natToDecAux : Nat → Nat → List Char
  | 0, _ => []
  | fuel + 1, n =>
    if n < 10 then [Char.ofNat (48 + n)]
    else natToDecAux fuel (n / 10) ++ [Char.ofNat (48 + n % 10)]

/-- Models Number.prototype.toString applied to the nonnegative integer
unix-seconds expiry value. -/
def natToDecStr (n : Nat) : String := ⟨natToDecAux (n + 1) n⟩

/-! ### The AdminAuthService (src/src/routes/index.tsx) -/

/-- SESSION_DURATION_MS = 24 * 60 * 60 * 1000. -/
def SESSION_DURATION_MS : Nat := 24 * 60 * 60 * 1000

/-- The sentinel user id under which the password hash is stored. -/
def PASSWORD_HASH_USER_ID : String := "__password_hash__"

/-- The for-loops of the source that walk a snapshot list and delete the
records satisfying p, one deleteAdminSessionById call each. -/
def deleteWhere (p : SessionRecord → Bool) : List SessionRecord → AuthM Unit
  | [] => pure ()
  | r :: rest => do
    if p r then deleteAdminSessionById r.id else pure ()
    deleteWhere p rest

/-- getStoredPasswordHash: the hash is kept in the session_token field of the
record whose user_id is the sentinel; any store error degrades to null. -/
def getStoredPasswordHash : AuthM (Option String) :=
  AuthM.tryCatch (do
    let sessions ← getAdminSessionByUserId PASSWORD_HASH_USER_ID
    match sessions with
    | s :: _ => pure (some s.session_token)
    | [] => pure none)
  (fun _ => pure none)

/-- storePasswordHash: delete every existing password-hash record, then
insert the new one (expires_at "0", never expires); false on store error. -/
def storePasswordHash (hash : String) : AuthM Bool :=
  AuthM.tryCatch (do
    let existing ← getAdminSessionByUserId PASSWORD_HASH_USER_ID
    deleteWhere (fun _ => true) existing
    insertAdminSession
      { id := 0, session_token := hash, expires_at := "0",
        user_id := PASSWORD_HASH_USER_ID }
    pure true)
  (fun _ => pure false)

/-- isPasswordSet: true iff a stored hash exists. -/
def isPasswordSet : AuthM Bool := do
  let hash ← getStoredPasswordHash
  pure hash.isSome

/-- logoutAdmin: read the token from the slot; if truthy, delete the matching
session record tolerating failure; always clear the slot. -/
def logoutAdmin : AuthM Unit := do
  let token ← getSlot
  match token with
  | some t =>
    if t = "" then clearSlot
    else do
      AuthM.tryCatch (deleteAdminSessionBySessionToken t) (fun _ => pure ())
      clearSlot
  | none => clearSlot

/-- resetAdminPassword: delete every password-hash record, then a full
logout; false if the sequence threw a store error. -/
def resetAdminPassword : AuthM Bool :=
  AuthM.tryCatch (do
    let existing ← getAdminSessionByUserId PASSWORD_HASH_USER_ID
    deleteWhere (fun _ => true) existing
    logoutAdmin
    pure true)
  (fun _ => pure false)

/-- The tail of authenticateAdmin after the password was accepted: generate a
token, compute the expiry string, then inside try/catch delete every
non-sentinel session, insert the new session, store the token in the slot. -/
def createAdminSession : AuthM (Option String) := do
  let sessionToken ← generateSessionToken
  let nowMs ← readNowMs
  let expiresAt := natToDecStr ((nowMs + SESSION_DURATION_MS) / 1000)
  AuthM.tryCatch (do
    let existingSessions ← getAllAdminSession
    deleteWhere (fun r => !(r.user_id == PASSWORD_HASH_USER_ID)) existingSessions
    insertAdminSession
      { id := 0, session_token := sessionToken, expires_at := expiresAt,
        user_id := "admin" }
    setSlot sessionToken
    pure (some sessionToken))
    (fun _ => pure none)

/-- authenticateAdmin: reject blank passwords; bootstrap the hash when none
is stored, otherwise compare digests; on acceptance create the session.  The
external SHA-256 digest is the hashPassword parameter. -/
def authenticateAdmin (hashPassword : String → String) (password : String) :
    AuthM (Option String) := do
  if password = "" ∨ jsTrim password = "" then pure none
  else
    let passwordHash := hashPassword password
    let storedHash ← getStoredPasswordHash
    match storedHash with
    | none => do
      let stored ← storePasswordHash passwordHash
      if stored then createAdminSession else pure none
    | some sh =>
      if passwordHash ≠ sh then pure none else createAdminSession

/-- validateSession: take the argument token or fall back to the slot; look
the token up; not found, sentinel hit, or expired all yield false (the latter
two clearing state as the source does); otherwise true. -/
def validateSession (sessionToken? : Option String) : AuthM Bool := do
  let slotVal ← getSlot
  let token : Option String :=
    match sessionToken? with
    | some s => if s = "" then slotVal else some s
    | none => slotVal
  match token with
  | none => pure false
  | some t =>
    if t = "" then pure false
    else
      AuthM.tryCatch (do
        let sessions ← getAdminSessionBySessionToken t
        match sessions with
        | [] => do
          clearSlot
          pure false
        | session :: _ =>
          if session.user_id = PASSWORD_HASH_USER_ID then do
            clearSlot
            pure false
          else do
            let nowMs ← readNowMs
            let now : Int := (nowMs / 1000 : Nat)
            if jsGtB now (jsParseInt session.expires_at) then do
              deleteAdminSessionById session.id
              clearSlot
              pure false
            else pure true)
        (fun _ => pure false)

/-- cleanupExpiredSessions: walk all records, skip the sentinel, delete every
record whose expiry has strictly passed; store errors are swallowed. -/
def cleanupExpiredSessions : AuthM Unit :=
  AuthM.tryCatch (do
    let allSessions ← getAllAdminSession
    let nowMs ← readNowMs
    let now : Int := (nowMs / 1000 : Nat)
    deleteWhere
      (fun r => !(r.user_id == PASSWORD_HASH_USER_ID) && jsGtB now (jsParseInt r.expires_at))
      allSessions)
  (fun _ => pure ())

/-! ### Run lemmas for the effect monad -/

deriving instance DecidableEq for Except

theorem AuthM.bind_eq (m : AuthM α) (f : α → AuthM β) : m >>= f = AuthM.bind m f := rfl

theorem AuthM.pure_eq (a : α) : (pure a : AuthM α) = AuthM.pure a := rfl

theorem AuthM.pure_apply (a : α) (s : AuthSt) : AuthM.pure a s = (Except.ok a, s) := rfl

theorem AuthM.bind_apply (m : AuthM α) (f : α → AuthM β) (s : AuthSt) :
    AuthM.bind m f s =
      match m s with
      | (Except.ok a, s₁) => f a s₁
      | (Except.error e, s₁) => (Except.error e, s₁) := rfl

theorem AuthM.tryCatch_apply (m : AuthM α) (h : Unit → AuthM α) (s : AuthSt) :
    AuthM.tryCatch m h s =
      match m s with
      | (Except.error e, s₁) => h e s₁
      | r => r := rfl

theorem AuthM.bind_ok {m : AuthM α} {s : AuthSt} {a : α} {s₁ : AuthSt}
    (h : m s = (Except.ok a, s₁)) (f : α → AuthM β) :
    AuthM.bind m f s = f a s₁ := by
  unfold AuthM.bind; rw [h]

theorem AuthM.bind_ok_inv {m : AuthM α} {f : α → AuthM β} {s s₂ : AuthSt} {b : β}
    (h : AuthM.bind m f s = (Except.ok b, s₂)) :
    ∃ a s₁, m s = (Except.ok a, s₁) ∧ f a s₁ = (Except.ok b, s₂) := by
  unfold AuthM.bind at h
  cases hm : m s with
  | mk r s₁ =>
    cases r with
    | ok a => rw [hm] at h; exact ⟨a, s₁, rfl, h⟩
    | error e => rw [hm] at h; exact absurd h (by simp)

theorem AuthM.tryCatch_ok_inv {m : AuthM α} {h : Unit → AuthM α} {s s₂ : AuthSt} {a : α}
    (hc : AuthM.tryCatch m h s = (Except.ok a, s₂)) :
    m s = (Except.ok a, s₂) ∨ ∃ s₁, m s = (Except.error (), s₁) ∧ h () s₁ = (Except.ok a, s₂) := by
  unfold AuthM.tryCatch at hc
  cases hm : m s with
  | mk r s₁ =>
    cases r with
    | ok b => left; rw [hm] at hc; exact hc
    | error e => right; rw [hm] at hc; exact ⟨s₁, rfl, hc⟩

/-! ### The delete loops -/

/-- Exact behaviour of a delete loop when the store never fails: every record
whose id matches a p-selected element of the snapshot list is removed. -/
theorem deleteWhere_nil_run (p : SessionRecord → Bool) (l : List SessionRecord) :
    ∀ s : AuthSt, s.fails = [] →
      deleteWhere p l s =
        (Except.ok (),
         { s with store := s.store.filter fun r => !(l.any fun x => p x && r.id == x.id) }) := by
  induction l with
  | nil =>
    intro s hf
    simp only [deleteWhere, pure, AuthM.pure, List.any_nil, Bool.not_false, List.filter_true]
  | cons x rest ih =>
    intro s hf
    cases hp : p x with
    | true =>
      have h₁ : deleteAdminSessionById x.id s =
          (Except.ok (), { s with store := s.store.filter fun r => !(r.id == x.id) }) := by
        simp only [deleteAdminSessionById, stepFail, bind, pure, AuthM.bind, AuthM.pure,
          popFail, hf, Bool.false_eq_true, reduceIte, removeById]
      have h₂ := ih { s with store := s.store.filter fun r => !(r.id == x.id) } hf
      simp only [deleteWhere, bind, pure, AuthM.bind, AuthM.pure, hp, reduceIte, h₁, h₂]
      have h₃ : (fun a : SessionRecord =>
            (!rest.any fun x => p x && a.id == x.id) && !(a.id == x.id)) =
          fun r : SessionRecord => !((x :: rest).any fun x => p x && r.id == x.id) := by
        funext r
        simp [hp, Bool.not_or, Bool.and_comm]
      rw [List.filter_filter, h₃]
    | false =>
      have h₂ := ih s hf
      simp only [deleteWhere, bind, pure, AuthM.bind, AuthM.pure, hp, Bool.false_eq_true,
        reduceIte, h₂]
      have h₃ : (fun r : SessionRecord => !(rest.any fun x => p x && r.id == x.id)) =
          fun r : SessionRecord => !((x :: rest).any fun x => p x && r.id == x.id) := by
        funext r
        simp [hp]
      rw [h₃]

/-- Success inversion of a delete loop under an arbitrary failure schedule:
if the loop finished without a thrown store error, it removed exactly the ids
of the p-selected snapshot elements and changed nothing else. -/
theorem deleteWhere_ok (p : SessionRecord → Bool) (l : List SessionRecord) :
    ∀ s s₁ : AuthSt, deleteWhere p l s = (Except.ok (), s₁) →
      s₁.store = (s.store.filter fun r => !(l.any fun x => p x && r.id == x.id)) ∧
      s₁.slot = s.slot ∧ s₁.nextId = s.nextId ∧ s₁.tokens = s.tokens ∧
      s₁.nowMs = s.nowMs ∧ (s.fails = [] → s₁.fails = []) := by
  induction l with
  | nil =>
    intro s s₁ h
    simp only [deleteWhere, pure, AuthM.pure, Prod.mk.injEq, true_and] at h
    subst h
    simp
  | cons x rest ih =>
    intro s s₁ h
    rcases hf : s.fails with - | ⟨b, f⟩
    · rw [deleteWhere_nil_run p (x :: rest) s hf] at h
      have h₂ := congrArg Prod.snd h
      simp only at h₂
      subst h₂
      simp [hf]
    · cases hp : p x with
      | false =>
        simp only [deleteWhere, bind, pure, AuthM.bind, AuthM.pure, hp, Bool.false_eq_true,
          reduceIte] at h
        have h₂ := ih s s₁ h
        have h₃ : (fun r : SessionRecord => !(rest.any fun x => p x && r.id == x.id)) =
            fun r : SessionRecord => !((x :: rest).any fun x => p x && r.id == x.id) := by
          funext r
          simp [hp]
        rw [h₃] at h₂
        exact ⟨h₂.1, h₂.2.1, h₂.2.2.1, h₂.2.2.2.1, h₂.2.2.2.2.1, fun hc => absurd hc (by simp)⟩
      | true =>
        cases b with
        | true =>
          simp only [deleteWhere, bind, pure, AuthM.bind, AuthM.pure, hp, reduceIte,
            deleteAdminSessionById, stepFail, popFail, hf, throwStore] at h
          exact absurd (congrArg Prod.fst h) (by simp)
        | false =>
          simp only [deleteWhere, bind, pure, AuthM.bind, AuthM.pure, hp, reduceIte,
            deleteAdminSessionById, stepFail, popFail, hf, Bool.false_eq_true, removeById] at h
          have h₂ := ih _ _ h
          simp only at h₂
          obtain ⟨hst, hsl, hni, htk, hnw, -⟩ := h₂
          refine ⟨?_, hsl, hni, htk, hnw, ?_⟩
          · rw [hst, List.filter_filter]
            have h₃ : (fun a : SessionRecord =>
                  (!rest.any fun x => p x && a.id == x.id) && !(a.id == x.id)) =
                fun r : SessionRecord => !((x :: rest).any fun x => p x && r.id == x.id) := by
              funext r
              simp [hp, Bool.not_or, Bool.and_comm]
            rw [h₃]
          · intro hc
            exact absurd hc (by simp)

/-! ### Decimal rendering and parsing -/

theorem digitChar_isDigit (d : Nat) (hd : d < 10) : (Char.ofNat (48 + d)).isDigit = true := by
  interval_cases d <;> decide

theorem digitChar_not_ws (d : Nat) (hd : d < 10) :
    (Char.ofNat (48 + d)).isWhitespace = false := by
  interval_cases d <;> decide

theorem digitChar_ne_minus (d : Nat) (hd : d < 10) :
    (Char.ofNat (48 + d) == '-') = false := by
  interval_cases d <;> decide

theorem digitChar_ne_plus (d : Nat) (hd : d < 10) :
    (Char.ofNat (48 + d) == '+') = false := by
  interval_cases d <;> decide

theorem digitVal_digitChar (d : Nat) (hd : d < 10) : digitVal (Char.ofNat (48 + d)) = d := by
  interval_cases d <;> decide

/-- Value of a digit list, most significant first. -/
def digitsVal (ds : List Nat) : Nat := ds.foldl (fun a d => 10 * a + d) 0

theorem natToDecAux_shape : ∀ fuel n, n < fuel →
    ∃ ds : List Nat, (∀ d ∈ ds, d < 10) ∧
      natToDecAux fuel n = ds.map (fun d => Char.ofNat (48 + d)) ∧
      ds ≠ [] ∧ digitsVal ds = n := by
  intro fuel
  induction fuel with
  | zero => intro n hn; omega
  | succ fuel ih =>
    intro n hn
    by_cases h10 : n < 10
    · refine ⟨[n], ?_, ?_, by simp, ?_⟩
      · intro d hd; simp at hd; omega
      · simp [natToDecAux, h10]
      · simp [digitsVal]
    · have hdiv : n / 10 < fuel := by
        have := Nat.div_lt_self (by omega : 0 < n) (by omega : 1 < 10)
        omega
      obtain ⟨ds, hds, heq, hne, hval⟩ := ih (n / 10) hdiv
      refine ⟨ds ++ [n % 10], ?_, ?_, by simp, ?_⟩
      · intro d hd
        rcases List.mem_append.mp hd with h | h
        · exact hds d h
        · simp at h; omega
      · simp [natToDecAux, h10, heq]
      · have : digitsVal (ds ++ [n % 10]) = 10 * digitsVal ds + n % 10 := by
          simp [digitsVal, List.foldl_append]
        rw [this, hval]
        omega

theorem takeWhile_all (p : α → Bool) : ∀ l : List α, (∀ c ∈ l, p c = true) → l.takeWhile p = l := by
  intro l
  induction l with
  | nil => intro h; rfl
  | cons x rest ih =>
    intro h
    rw [List.takeWhile_cons, h x (by simp), ih fun c hc => h c (by simp [hc])]
    simp

theorem foldl_digit_map (ds : List Nat) (h : ∀ d ∈ ds, d < 10) :
    ∀ acc : Nat,
      (ds.map fun d => Char.ofNat (48 + d)).foldl (fun n c => 10 * n + digitVal c) acc =
        ds.foldl (fun a d => 10 * a + d) acc := by
  induction ds with
  | nil => intro acc; rfl
  | cons d rest ih =>
    intro acc
    simp only [List.map_cons, List.foldl_cons]
    rw [digitVal_digitChar d (h d (by simp))]
    exact ih (fun x hx => h x (by simp [hx])) _

/-- Parsing the decimal rendering of a nonnegative unix-seconds value gives
back the value: the expiry strings written by the component always parse. -/
theorem jsParseInt_natToDecStr (n : Nat) : jsParseInt (natToDecStr n) = some (n : Int) := by
  obtain ⟨ds, hds, heq, hne, hval⟩ := natToDecAux_shape (n + 1) n (by omega)
  cases ds with
  | nil => exact absurd rfl hne
  | cons d0 rest =>
    have hd0 : d0 < 10 := hds d0 (by simp)
    have hdata : (natToDecStr n).data = (d0 :: rest).map fun d => Char.ofNat (48 + d) := by
      simp [natToDecStr, heq]
    unfold jsParseInt
    rw [hdata]
    simp only [List.map_cons, List.dropWhile_cons, digitChar_not_ws d0 hd0, Bool.false_eq_true,
      reduceIte, List.head?_cons, Option.some.injEq]
    have hm : ((Char.ofNat (48 + d0) : Char) == '-') = false := digitChar_ne_minus d0 hd0
    have hp : ((Char.ofNat (48 + d0) : Char) == '+') = false := digitChar_ne_plus d0 hd0
    rw [show ((some (Char.ofNat (48 + d0)) == some '-') : Bool) = false by simp [hm],
      show ((some (Char.ofNat (48 + d0)) == some '+') : Bool) = false by simp [hp]]
    simp only [Bool.or_self, Bool.false_eq_true, reduceIte]
    rw [takeWhile_all _ _ ?hall]
    case hall =>
      intro c hc
      simp only [List.mem_cons, List.mem_map] at hc
      rcases hc with rfl | ⟨d, hd, rfl⟩
      · exact digitChar_isDigit d0 hd0
      · exact digitChar_isDigit d (hds d (by simp [hd]))
    simp only [List.isEmpty_cons, Bool.false_eq_true, reduceIte]
    rw [show ((Char.ofNat (48 + d0)) :: (rest.map fun d => Char.ofNat (48 + d))) =
        ((d0 :: rest).map fun d => Char.ofNat (48 + d)) by simp]
    rw [foldl_digit_map (d0 :: rest) hds 0]
    have hval2 : (d0 :: rest).foldl (fun a d => 10 * a + d) 0 = n := hval
    rw [hval2]

/-! ### No store error escapes the component -/

/-- The computation never finishes in the thrown-error state, whatever the
state and failure schedule. -/
def NoThrow (m : AuthM α) : Prop := ∀ s : AuthSt, ∃ a s₁, m s = (Except.ok a, s₁)

theorem noThrow_pure (a : α) : NoThrow (pure a : AuthM α) := fun s => ⟨a, s, rfl⟩

theorem noThrow_bind {m : AuthM α} {f : α → AuthM β} (hm : NoThrow m)
    (hf : ∀ a, NoThrow (f a)) : NoThrow (m >>= f) := by
  intro s
  obtain ⟨a, s₁, h⟩ := hm s
  obtain ⟨b, s₂, h₂⟩ := hf a s₁
  refine ⟨b, s₂, ?_⟩
  show AuthM.bind m f s = (Except.ok b, s₂)
  unfold AuthM.bind
  rw [h]
  exact h₂

theorem noThrow_tryCatch {m : AuthM α} {h : Unit → AuthM α} (hh : ∀ e, NoThrow (h e)) :
    NoThrow (AuthM.tryCatch m h) := by
  intro s
  cases hm : m s with
  | mk r s₁ =>
    cases r with
    | ok a =>
      refine ⟨a, s₁, ?_⟩
      unfold AuthM.tryCatch
      rw [hm]
    | error e =>
      obtain ⟨a, s₂, h₂⟩ := hh e s₁
      refine ⟨a, s₂, ?_⟩
      unfold AuthM.tryCatch
      rw [hm]
      exact h₂

theorem noThrow_getSlot : NoThrow getSlot := fun s => ⟨s.slot, s, rfl⟩

theorem noThrow_clearSlot : NoThrow clearSlot := fun s => ⟨(), { s with slot := none }, rfl⟩

theorem noThrow_setSlot (v : String) : NoThrow (setSlot v) := fun s => ⟨(), { s with slot := some v }, rfl⟩

theorem noThrow_readNowMs : NoThrow readNowMs := fun s => ⟨s.nowMs, s, rfl⟩

theorem noThrow_generateSessionToken : NoThrow generateSessionToken := by
  intro s
  cases ht : s.tokens with
  | nil => exact ⟨"", s, by unfold generateSessionToken; rw [ht]⟩
  | cons t rest => exact ⟨t, _, by unfold generateSessionToken; rw [ht]⟩

theorem noThrow_getStoredPasswordHash : NoThrow getStoredPasswordHash :=
  noThrow_tryCatch fun _ => noThrow_pure none

theorem noThrow_storePasswordHash (hash : String) : NoThrow (storePasswordHash hash) :=
  noThrow_tryCatch fun _ => noThrow_pure false

theorem noThrow_isPasswordSet : NoThrow isPasswordSet :=
  noThrow_bind noThrow_getStoredPasswordHash fun a => noThrow_pure a.isSome

theorem noThrow_ite {c : Prop} [Decidable c] {x y : AuthM α} (hx : NoThrow x)
    (hy : NoThrow y) : NoThrow (if c then x else y) := by
  by_cases h : c
  · rw [if_pos h]; exact hx
  · rw [if_neg h]; exact hy

theorem noThrow_logoutAdmin : NoThrow logoutAdmin := by
  unfold logoutAdmin
  refine noThrow_bind noThrow_getSlot ?_
  intro a
  cases a with
  | none => exact noThrow_clearSlot
  | some t =>
    exact noThrow_ite noThrow_clearSlot
      (noThrow_bind (noThrow_tryCatch fun _ => noThrow_pure ()) fun _ => noThrow_clearSlot)

theorem noThrow_resetAdminPassword : NoThrow resetAdminPassword :=
  noThrow_tryCatch fun _ => noThrow_pure false

theorem noThrow_createAdminSession : NoThrow createAdminSession := by
  unfold createAdminSession
  refine noThrow_bind noThrow_generateSessionToken ?_
  intro tok
  refine noThrow_bind noThrow_readNowMs ?_
  intro now
  exact noThrow_tryCatch fun _ => noThrow_pure none

theorem noThrow_authenticateAdmin (hashPassword : String → String) (pw : String) :
    NoThrow (authenticateAdmin hashPassword pw) := by
  unfold authenticateAdmin
  by_cases hb : pw = "" ∨ jsTrim pw = ""
  · rw [if_pos hb]
    exact noThrow_pure none
  · rw [if_neg hb]
    refine noThrow_bind noThrow_getStoredPasswordHash ?_
    intro r
    cases r with
    | none =>
      refine noThrow_bind (noThrow_storePasswordHash _) ?_
      intro b
      cases b with
      | true => exact noThrow_createAdminSession
      | false => exact noThrow_pure none
    | some sh => exact noThrow_ite (noThrow_pure none) noThrow_createAdminSession

theorem noThrow_validateSession (x : Option String) : NoThrow (validateSession x) := by
  unfold validateSession
  refine noThrow_bind noThrow_getSlot ?_
  intro slotVal
  cases x with
  | none =>
    cases slotVal with
    | none => exact noThrow_pure false
    | some t =>
      exact noThrow_ite (noThrow_pure false) (noThrow_tryCatch fun _ => noThrow_pure false)
  | some s0 =>
    by_cases hs : s0 = ""
    · subst hs
      cases slotVal with
      | none => exact noThrow_pure false
      | some t =>
        exact noThrow_ite (noThrow_pure false) (noThrow_tryCatch fun _ => noThrow_pure false)
    · simp only [hs, reduceIte]
      exact noThrow_tryCatch fun _ => noThrow_pure false

theorem noThrow_cleanupExpiredSessions : NoThrow cleanupExpiredSessions :=
  noThrow_tryCatch fun _ => noThrow_pure ()

/-! ### Inversion lemmas for successful runs -/

theorem generateSessionToken_inv {s s₁ : AuthSt} {t : String}
    (h : generateSessionToken s = (Except.ok t, s₁)) :
    s₁.store = s.store ∧ s₁.slot = s.slot ∧ s₁.nextId = s.nextId ∧
    s₁.nowMs = s.nowMs ∧ s₁.fails = s.fails := by
  unfold generateSessionToken at h
  rcases ht : s.tokens with - | ⟨t0, rest⟩ <;> rw [ht] at h <;>
    simp only [Prod.mk.injEq, Except.ok.injEq] at h <;>
    obtain ⟨-, h₂⟩ := h <;> subst h₂ <;> simp

theorem getAllAdminSession_ok {s s₁ : AuthSt} {l : List SessionRecord}
    (h : getAllAdminSession s = (Except.ok l, s₁)) :
    l = s.store ∧ s₁.store = s.store ∧ s₁.slot = s.slot ∧ s₁.nextId = s.nextId ∧
    s₁.tokens = s.tokens ∧ s₁.nowMs = s.nowMs ∧ (s.fails = [] → s₁.fails = []) := by
  unfold getAllAdminSession at h
  rcases hf : s.fails with - | ⟨b, f⟩
  · simp only [bind, pure, AuthM.bind, AuthM.pure, stepFail, popFail, hf, Bool.false_eq_true,
      reduceIte, readStore, Prod.mk.injEq, Except.ok.injEq] at h
    obtain ⟨h₁, h₂⟩ := h
    subst h₂
    exact ⟨h₁.symm, rfl, rfl, rfl, rfl, rfl, fun _ => hf⟩
  · cases b with
    | true =>
      simp only [bind, pure, AuthM.bind, AuthM.pure, stepFail, popFail, hf, reduceIte,
        throwStore, Prod.mk.injEq] at h
      exact absurd h.1 (by simp)
    | false =>
      simp only [bind, pure, AuthM.bind, AuthM.pure, stepFail, popFail, hf, Bool.false_eq_true,
        reduceIte, readStore, Prod.mk.injEq, Except.ok.injEq] at h
      obtain ⟨h₁, h₂⟩ := h
      subst h₂
      exact ⟨h₁.symm, rfl, rfl, rfl, rfl, rfl, fun hc => absurd hc (by simp)⟩

theorem insertAdminSession_ok {rec : SessionRecord} {s s₁ : AuthSt}
    (h : insertAdminSession rec s = (Except.ok (), s₁)) :
    s₁.store = s.store ++ [{ rec with id := s.nextId }] ∧ s₁.slot = s.slot ∧
    s₁.tokens = s.tokens ∧ s₁.nowMs = s.nowMs ∧ (s.fails = [] → s₁.fails = []) := by
  unfold insertAdminSession at h
  rcases hf : s.fails with - | ⟨b, f⟩
  · simp only [bind, pure, AuthM.bind, AuthM.pure, stepFail, popFail, hf, Bool.false_eq_true,
      reduceIte, appendRecord, Prod.mk.injEq] at h
    obtain ⟨-, h₂⟩ := h
    subst h₂
    exact ⟨rfl, rfl, rfl, rfl, fun _ => rfl⟩
  · cases b with
    | true =>
      simp only [bind, pure, AuthM.bind, AuthM.pure, stepFail, popFail, hf, reduceIte,
        throwStore, Prod.mk.injEq] at h
      exact absurd h.1 (by simp)
    | false =>
      simp only [bind, pure, AuthM.bind, AuthM.pure, stepFail, popFail, hf, Bool.false_eq_true,
        reduceIte, appendRecord, Prod.mk.injEq] at h
      obtain ⟨-, h₂⟩ := h
      subst h₂
      exact ⟨rfl, rfl, rfl, rfl, fun hc => absurd hc (by simp)⟩

/-- What a successful createAdminSession run guarantees, whatever the failure
schedule: the final store is the sentinel-only survivors of the old store
followed by the one new admin record carrying the returned token, and the
local slot holds the returned token. -/
theorem createAdminSession_ok {s st' : AuthSt} {tok : String}
    (h : createAdminSession s = (Except.ok (some tok), st')) :
    st'.slot = some tok ∧ st'.nowMs = s.nowMs ∧ (s.fails = [] → st'.fails = []) ∧
    ∃ S nid,
      st'.store =
        S ++ [⟨nid, tok, natToDecStr ((s.nowMs + SESSION_DURATION_MS) / 1000), "admin"⟩] ∧
      ∀ r ∈ S, r.user_id = PASSWORD_HASH_USER_ID ∧ r ∈ s.store := by
  unfold createAdminSession at h
  obtain ⟨tok₀, s₁, hg, h⟩ := AuthM.bind_ok_inv h
  obtain ⟨hg_store, hg_slot, hg_nid, hg_now, hg_fails⟩ := generateSessionToken_inv hg
  obtain ⟨nowv, s₂, hn, h⟩ := AuthM.bind_ok_inv h
  have hn' : nowv = s₁.nowMs ∧ s₂ = s₁ := by
    unfold readNowMs at hn
    simp only [Prod.mk.injEq, Except.ok.injEq] at hn
    exact ⟨hn.1.symm, hn.2.symm⟩
  obtain ⟨hnow, hs₂⟩ := hn'
  subst hs₂
  subst hnow
  rcases AuthM.tryCatch_ok_inv h with hB | ⟨s₃, -, hP⟩
  · obtain ⟨snapshot, s₃, hga, hB⟩ := AuthM.bind_ok_inv hB
    obtain ⟨hsnap, h₃store, h₃slot, h₃nid, h₃tok, h₃now, h₃fails⟩ := getAllAdminSession_ok hga
    obtain ⟨u, s₄, hdw, hB⟩ := AuthM.bind_ok_inv hB
    cases u
    obtain ⟨h₄store, h₄slot, h₄nid, h₄tok, h₄now, h₄fails⟩ := deleteWhere_ok _ _ _ _ hdw
    obtain ⟨u₂, s₅, hins, hB⟩ := AuthM.bind_ok_inv hB
    cases u₂
    obtain ⟨h₅store, h₅slot, h₅tok, h₅now, h₅fails⟩ := insertAdminSession_ok hins
    obtain ⟨u₃, s₆, hset, hB⟩ := AuthM.bind_ok_inv hB
    cases u₃
    have hset' : s₆ = { s₅ with slot := some tok₀ } := by
      unfold setSlot at hset
      simp only [Prod.mk.injEq] at hset
      exact hset.2.symm
    subst hset'
    have hB' : tok₀ = tok ∧ st' = { s₅ with slot := some tok₀ } := by
      simp only [pure, AuthM.pure, Prod.mk.injEq, Except.ok.injEq, Option.some.injEq] at hB
      exact ⟨hB.1, hB.2.symm⟩
    obtain ⟨htok, hst⟩ := hB'
    subst htok
    subst hst
    refine ⟨rfl, ?_, ?_, s₄.store, s₄.nextId, ?_, ?_⟩
    · simp only [h₅now, h₄now, h₃now, hg_now]
    · intro hnil
      exact h₅fails (h₄fails (h₃fails (hg_fails.trans hnil)))
    · simp only [h₅store, hg_now]
    · intro r hr
      rw [h₄store] at hr
      obtain ⟨hmem₁, hcond⟩ := List.mem_filter.mp hr
      rw [h₃store] at hmem₁
      have hmem₂ : r ∈ s.store := by rw [← hg_store]; exact hmem₁
      constructor
      · by_contra hne
        have hself : (snapshot.any fun x =>
            (!(x.user_id == PASSWORD_HASH_USER_ID)) && r.id == x.id) = true := by
          refine List.any_eq_true.mpr ⟨r, ?_, ?_⟩
          · rw [hsnap]; exact hmem₁
          · simp [hne]
        rw [hself] at hcond
        simp at hcond
      · exact hmem₂
  · exact absurd (congrArg Prod.fst hP) (by simp [pure, AuthM.pure])

/-! ### Exact runs of authenticateAdmin on a store that never fails -/

theorem jsTrim_empty : jsTrim "" = "" := rfl

/-- The password-hash record as inserted by storePasswordHash, with its
server-assigned id. -/
def hashRecord (nid : Nat) (h : String) : SessionRecord :=
  { id := nid, session_token := h, expires_at := "0", user_id := PASSWORD_HASH_USER_ID }

/-- The admin session record as inserted by createAdminSession, with its
server-assigned id. -/
def adminRecord (nid : Nat) (tok : String) (nowMs : Nat) : SessionRecord :=
  { id := nid, session_token := tok,
    expires_at := natToDecStr ((nowMs + SESSION_DURATION_MS) / 1000), user_id := "admin" }

theorem blank_check_false {pw : String} (hb : jsTrim pw ≠ "") :
    ¬(pw = "" ∨ jsTrim pw = "") := by
  rintro (rfl | hc)
  · exact hb jsTrim_empty
  · exact hb hc

/-- First-time bootstrap on a store with no password-hash record: the digest
is stored, all non-sentinel records of the intermediate store are deleted by
id, the new admin session is appended and the token is returned. -/
theorem authenticateAdmin_nil_bootstrap (hashPassword : String → String) (pw : String)
    (st : AuthSt) (tok : String) (rest : List String)
    (hf : st.fails = []) (hb : jsTrim pw ≠ "")
    (hnohash : st.store.filter (fun r => r.user_id == PASSWORD_HASH_USER_ID) = [])
    (htok : st.tokens = tok :: rest) :
    authenticateAdmin hashPassword pw st =
      (Except.ok (some tok),
       { st with
          store :=
            ((st.store ++ [hashRecord st.nextId (hashPassword pw)]).filter
              fun r => !((st.store ++ [hashRecord st.nextId (hashPassword pw)]).any
                fun x => (!(x.user_id == PASSWORD_HASH_USER_ID)) && r.id == x.id)) ++
            [adminRecord (st.nextId + 1) tok st.nowMs],
          nextId := st.nextId + 2,
          slot := some tok,
          tokens := rest }) := by
  obtain ⟨store, nid, slot, fails, toks, nowMs⟩ := st
  simp only at hf htok hnohash
  subst hf
  subst htok
  unfold authenticateAdmin getStoredPasswordHash storePasswordHash createAdminSession
    getAdminSessionByUserId getAllAdminSession insertAdminSession
  simp only [if_neg (blank_check_false hb), bind, pure, AuthM.bind, AuthM.pure, AuthM.tryCatch,
    stepFail, popFail, throwStore, readStore, readNowMs, generateSessionToken, appendRecord,
    setSlot, hnohash, deleteWhere, deleteWhere_nil_run, reduceIte, Bool.false_eq_true,
    hashRecord, adminRecord]

/-- Re-login with the correct password on a store that already holds the
digest: every non-sentinel record is deleted by id, the new admin session is
appended, the token is returned. -/
theorem authenticateAdmin_nil_verify (hashPassword : String → String) (pw : String)
    (st : AuthSt) (tok : String) (rest : List String)
    (hrec : SessionRecord) (hrest : List SessionRecord)
    (hf : st.fails = []) (hb : jsTrim pw ≠ "")
    (hhash : st.store.filter (fun r => r.user_id == PASSWORD_HASH_USER_ID) = hrec :: hrest)
    (hmatch : hashPassword pw = hrec.session_token)
    (htok : st.tokens = tok :: rest) :
    authenticateAdmin hashPassword pw st =
      (Except.ok (some tok),
       { st with
          store :=
            (st.store.filter
              fun r => !(st.store.any
                fun x => (!(x.user_id == PASSWORD_HASH_USER_ID)) && r.id == x.id)) ++
            [adminRecord st.nextId tok st.nowMs],
          nextId := st.nextId + 1,
          slot := some tok,
          tokens := rest }) := by
  obtain ⟨store, nid, slot, fails, toks, nowMs⟩ := st
  simp only at hf htok hhash
  subst hf
  subst htok
  have hnn : ¬(hashPassword pw ≠ hrec.session_token) := fun h => h hmatch
  unfold authenticateAdmin getStoredPasswordHash createAdminSession
    getAdminSessionByUserId getAllAdminSession insertAdminSession
  simp only [if_neg (blank_check_false hb), bind, pure, AuthM.bind, AuthM.pure, AuthM.tryCatch,
    stepFail, popFail, throwStore, readStore, readNowMs, generateSessionToken, appendRecord,
    setSlot, hhash, if_neg hnn, deleteWhere_nil_run, reduceIte, Bool.false_eq_true, adminRecord]

/-- Wrong password on a store that already holds a digest: no result and no
state change at all. -/
theorem authenticateAdmin_nil_reject (hashPassword : String → String) (pw : String)
    (st : AuthSt) (hrec : SessionRecord) (hrest : List SessionRecord)
    (hf : st.fails = []) (hb : jsTrim pw ≠ "")
    (hhash : st.store.filter (fun r => r.user_id == PASSWORD_HASH_USER_ID) = hrec :: hrest)
    (hne : hashPassword pw ≠ hrec.session_token) :
    authenticateAdmin hashPassword pw st = (Except.ok none, st) := by
  obtain ⟨store, nid, slot, fails, toks, nowMs⟩ := st
  simp only at hf hhash
  subst hf
  unfold authenticateAdmin getStoredPasswordHash getAdminSessionByUserId
  simp only [if_neg (blank_check_false hb), bind, pure, AuthM.bind, AuthM.pure, AuthM.tryCatch,
    stepFail, popFail, throwStore, readStore, hhash, if_pos hne, reduceIte, Bool.false_eq_true]

/-- Blank password: rejected before any effect. -/
theorem authenticateAdmin_blank (hashPassword : String → String) (pw : String)
    (st : AuthSt) (hblank : pw = "" ∨ jsTrim pw = "") :
    authenticateAdmin hashPassword pw st = (Except.ok none, st) := by
  unfold authenticateAdmin
  rw [if_pos hblank]
  rfl

/-! ### Exact runs of validateSession on a store that never fails -/

/-- Token found, not the sentinel, not expired: true, nothing changes. -/
theorem validateSession_nil_live (t : String) (st : AuthSt)
    (srec : SessionRecord) (rest : List SessionRecord)
    (hf : st.fails = []) (ht : t ≠ "")
    (hlook : st.store.filter (fun r => r.session_token == t) = srec :: rest)
    (hns : srec.user_id ≠ PASSWORD_HASH_USER_ID)
    (hexp : jsGtB ((st.nowMs / 1000 : Nat) : Int) (jsParseInt srec.expires_at) = false) :
    validateSession (some t) st = (Except.ok true, st) := by
  obtain ⟨store, nid, slot, fails, toks, nowMs⟩ := st
  simp only at hf hlook hexp
  subst hf
  unfold validateSession getAdminSessionBySessionToken
  simp only [if_neg ht, bind, pure, AuthM.bind, AuthM.pure, AuthM.tryCatch, stepFail, popFail,
    throwStore, readStore, readNowMs, getSlot, clearSlot, hlook, if_neg hns, hexp,
    Bool.false_eq_true, reduceIte]

/-- Token found, not the sentinel, expired: the record is deleted by id, the
slot is cleared, the result is false. -/
theorem validateSession_nil_expired (t : String) (st : AuthSt)
    (srec : SessionRecord) (rest : List SessionRecord)
    (hf : st.fails = []) (ht : t ≠ "")
    (hlook : st.store.filter (fun r => r.session_token == t) = srec :: rest)
    (hns : srec.user_id ≠ PASSWORD_HASH_USER_ID)
    (hexp : jsGtB ((st.nowMs / 1000 : Nat) : Int) (jsParseInt srec.expires_at) = true) :
    validateSession (some t) st =
      (Except.ok false,
       { st with store := st.store.filter fun r => !(r.id == srec.id), slot := none }) := by
  obtain ⟨store, nid, slot, fails, toks, nowMs⟩ := st
  simp only at hf hlook hexp
  subst hf
  unfold validateSession getAdminSessionBySessionToken deleteAdminSessionById
  simp only [if_neg ht, bind, pure, AuthM.bind, AuthM.pure, AuthM.tryCatch, stepFail, popFail,
    throwStore, readStore, readNowMs, getSlot, clearSlot, removeById, hlook, if_neg hns, hexp,
    Bool.false_eq_true, reduceIte]

/-- Token found but the record is the password-hash sentinel: the slot is
cleared and the result is false. -/
theorem validateSession_nil_sentinel (t : String) (st : AuthSt)
    (srec : SessionRecord) (rest : List SessionRecord)
    (hf : st.fails = []) (ht : t ≠ "")
    (hlook : st.store.filter (fun r => r.session_token == t) = srec :: rest)
    (hs : srec.user_id = PASSWORD_HASH_USER_ID) :
    validateSession (some t) st = (Except.ok false, { st with slot := none }) := by
  obtain ⟨store, nid, slot, fails, toks, nowMs⟩ := st
  simp only at hf hlook
  subst hf
  unfold validateSession getAdminSessionBySessionToken
  simp only [if_neg ht, bind, pure, AuthM.bind, AuthM.pure, AuthM.tryCatch, stepFail, popFail,
    throwStore, readStore, readNowMs, getSlot, clearSlot, hlook, if_pos hs,
    Bool.false_eq_true, reduceIte]

/-! ### Exact runs of the maintenance operations on a store that never fails -/

theorem cleanupExpiredSessions_nil_run (st : AuthSt) (hf : st.fails = []) :
    cleanupExpiredSessions st =
      (Except.ok (),
       { st with store := st.store.filter fun r =>
          !(st.store.any fun x =>
            ((!(x.user_id == PASSWORD_HASH_USER_ID)) &&
              jsGtB ((st.nowMs / 1000 : Nat) : Int) (jsParseInt x.expires_at)) &&
            r.id == x.id) }) := by
  obtain ⟨store, nid, slot, fails, toks, nowMs⟩ := st
  simp only at hf
  subst hf
  unfold cleanupExpiredSessions getAllAdminSession
  simp only [bind, pure, AuthM.bind, AuthM.pure, AuthM.tryCatch, stepFail, popFail, throwStore,
    readStore, readNowMs, deleteWhere_nil_run, Bool.false_eq_true, reduceIte]

theorem eq_of_mem_of_same_id (L : List SessionRecord)
    (hdist : L.Pairwise fun a b => a.id ≠ b.id) :
    ∀ x ∈ L, ∀ r ∈ L, r.id = x.id → x = r := by
  induction L with
  | nil => intro x hx; exact absurd hx (by simp)
  | cons y t ih =>
    intro x hx r hr hid
    obtain ⟨hy, hdt⟩ := List.pairwise_cons.mp hdist
    rcases List.mem_cons.mp hx with rfl | hx₂
    · rcases List.mem_cons.mp hr with rfl | hr₂
      · rfl
      · exact absurd hid.symm (hy r hr₂)
    · rcases List.mem_cons.mp hr with rfl | hr₂
      · exact absurd hid (hy x hx₂)
      · exact ih hdt x hx₂ r hr₂ hid

/-- When ids are pairwise distinct, deleting by the ids of the p-selected
elements of the list itself is the same as filtering out the p-selected
elements. -/
theorem purge_filter_of_distinct (L : List SessionRecord) (p : SessionRecord → Bool)
    (hdist : L.Pairwise fun a b => a.id ≠ b.id) :
    (L.filter fun r => !(L.any fun x => p x && r.id == x.id)) = L.filter fun r => !(p r) := by
  apply List.filter_congr
  intro r hr
  congr 1
  cases hp : p r with
  | true =>
    apply List.any_eq_true.mpr
    exact ⟨r, hr, by simp [hp]⟩
  | false =>
    apply List.any_eq_false.mpr
    intro x hx
    by_contra hc
    simp only [Bool.not_eq_false, Bool.and_eq_true, beq_iff_eq] at hc
    obtain ⟨hpx, hidx⟩ := hc
    have := eq_of_mem_of_same_id L hdist x hx r hr hidx
    rw [← this] at hp
    rw [hp] at hpx
    exact absurd hpx (by simp)

/-- Records that survive the purge of password-hash records are never the
sentinel: every sentinel record in the snapshot deletes its own id. -/
theorem purge_no_sentinel (store : List SessionRecord) :
    ∀ r ∈ (store.filter fun r =>
        !((store.filter fun x => x.user_id == PASSWORD_HASH_USER_ID).any fun x => r.id == x.id)),
      ¬(r.user_id == PASSWORD_HASH_USER_ID) = true := by
  intro r hr hsent
  obtain ⟨hmem, hcond⟩ := List.mem_filter.mp hr
  have hin : r ∈ store.filter fun x => x.user_id == PASSWORD_HASH_USER_ID :=
    List.mem_filter.mpr ⟨hmem, hsent⟩
  have hany : ((store.filter fun x => x.user_id == PASSWORD_HASH_USER_ID).any
      fun x => r.id == x.id) = true := List.any_eq_true.mpr ⟨r, hin, by simp⟩
  rw [hany] at hcond
  exact absurd hcond (by simp)

/-- resetAdminPassword on a store that never fails: succeeds, clears the
slot, only shrinks the store, and leaves no password-hash record. -/
theorem resetAdminPassword_nil (st : AuthSt) (hf : st.fails = []) :
    ∃ stR : AuthSt, resetAdminPassword st = (Except.ok true, stR) ∧
      stR.slot = none ∧ stR.fails = [] ∧ stR.nextId = st.nextId ∧
      stR.tokens = st.tokens ∧ stR.nowMs = st.nowMs ∧
      (∀ r ∈ stR.store, r ∈ st.store) ∧
      (stR.store.filter fun r => r.user_id == PASSWORD_HASH_USER_ID) = [] := by
  obtain ⟨store, nid, slot, fails, toks, nowMs⟩ := st
  simp only at hf
  subst hf
  rcases slot with - | t
  · refine ⟨⟨store.filter fun r =>
        !((store.filter fun x => x.user_id == PASSWORD_HASH_USER_ID).any fun x => r.id == x.id),
      nid, none, [], toks, nowMs⟩, ?_, rfl, rfl, rfl, rfl, rfl, ?_, ?_⟩
    · unfold resetAdminPassword getAdminSessionByUserId logoutAdmin
      simp only [bind, pure, AuthM.bind, AuthM.pure, AuthM.tryCatch, stepFail, popFail,
        throwStore, readStore, getSlot, clearSlot, deleteWhere_nil_run, Bool.false_eq_true,
        reduceIte, Bool.true_and]
    · intro r hr
      exact (List.mem_filter.mp hr).1
    · exact List.filter_eq_nil_iff.mpr (purge_no_sentinel store)
  · by_cases ht : t = ""
    · subst ht
      refine ⟨⟨store.filter fun r =>
          !((store.filter fun x => x.user_id == PASSWORD_HASH_USER_ID).any fun x => r.id == x.id),
        nid, none, [], toks, nowMs⟩, ?_, rfl, rfl, rfl, rfl, rfl, ?_, ?_⟩
      · unfold resetAdminPassword getAdminSessionByUserId logoutAdmin
        simp only [bind, pure, AuthM.bind, AuthM.pure, AuthM.tryCatch, stepFail, popFail,
          throwStore, readStore, getSlot, clearSlot, deleteWhere_nil_run, Bool.false_eq_true,
          reduceIte, Bool.true_and]
      · intro r hr
        exact (List.mem_filter.mp hr).1
      · exact List.filter_eq_nil_iff.mpr (purge_no_sentinel store)
    · refine ⟨⟨(store.filter fun r =>
          !((store.filter fun x => x.user_id == PASSWORD_HASH_USER_ID).any fun x => r.id == x.id)).filter
            (fun r => !(r.session_token == t)),
        nid, none, [], toks, nowMs⟩, ?_, rfl, rfl, rfl, rfl, rfl, ?_, ?_⟩
      · unfold resetAdminPassword getAdminSessionByUserId logoutAdmin
          deleteAdminSessionBySessionToken
        simp only [bind, pure, AuthM.bind, AuthM.pure, AuthM.tryCatch, stepFail, popFail,
          throwStore, readStore, getSlot, clearSlot, removeByToken, if_neg ht,
          deleteWhere_nil_run, Bool.false_eq_true, reduceIte, Bool.true_and]
      · intro r hr
        exact (List.mem_filter.mp (List.mem_filter.mp hr).1).1
      · refine List.filter_eq_nil_iff.mpr ?_
        intro r hr
        exact purge_no_sentinel store r (List.mem_filter.mp hr).1

/-! ### Remaining scenario lemmas -/

theorem isPasswordSet_nil_none (st : AuthSt) (hf : st.fails = [])
    (hno : st.store.filter (fun r => r.user_id == PASSWORD_HASH_USER_ID) = []) :
    isPasswordSet st = (Except.ok false, st) := by
  obtain ⟨store, nid, slot, fails, toks, nowMs⟩ := st
  simp only at hf hno
  subst hf
  unfold isPasswordSet getStoredPasswordHash getAdminSessionByUserId
  simp only [bind, pure, AuthM.bind, AuthM.pure, AuthM.tryCatch, stepFail, popFail, throwStore,
    readStore, hno, Bool.false_eq_true, reduceIte, Option.isSome_none]

/-- validateSession returns false for a token that no non-sentinel record
carries, whatever the failure schedule. -/
theorem validateSession_false_of_no_match (t : String) (st : AuthSt) (ht : t ≠ "")
    (hall : ∀ r ∈ st.store, r.session_token = t → r.user_id = PASSWORD_HASH_USER_ID) :
    (validateSession (some t) st).1 = Except.ok false := by
  obtain ⟨store, nid, slot, fails, toks, nowMs⟩ := st
  simp only at hall
  have hhead : ∀ r0 rst, store.filter (fun r => r.session_token == t) = r0 :: rst →
      r0.user_id = PASSWORD_HASH_USER_ID := by
    intro r0 rst hfil
    have hr0mem : r0 ∈ store.filter (fun r => r.session_token == t) := by
      rw [hfil]; exact List.mem_cons_self r0 rst
    obtain ⟨hmem, htk⟩ := List.mem_filter.mp hr0mem
    exact hall r0 hmem (by simpa using htk)
  unfold validateSession getAdminSessionBySessionToken
  rcases fails with - | ⟨b, f⟩
  · rcases hfil : store.filter (fun r => r.session_token == t) with - | ⟨r0, rst⟩
    · simp only [if_neg ht, bind, pure, AuthM.bind, AuthM.pure, AuthM.tryCatch, stepFail,
        popFail, throwStore, readStore, getSlot, clearSlot, hfil, Bool.false_eq_true, reduceIte]
    · simp only [if_neg ht, bind, pure, AuthM.bind, AuthM.pure, AuthM.tryCatch, stepFail,
        popFail, throwStore, readStore, getSlot, clearSlot, hfil,
        if_pos (hhead r0 rst hfil), Bool.false_eq_true, reduceIte]
  · cases b with
    | true =>
      simp only [if_neg ht, bind, pure, AuthM.bind, AuthM.pure, AuthM.tryCatch, stepFail,
        popFail, throwStore, readStore, getSlot, clearSlot, reduceIte]
    | false =>
      rcases hfil : store.filter (fun r => r.session_token == t) with - | ⟨r0, rst⟩
      · simp only [if_neg ht, bind, pure, AuthM.bind, AuthM.pure, AuthM.tryCatch, stepFail,
          popFail, throwStore, readStore, getSlot, clearSlot, hfil, Bool.false_eq_true, reduceIte]
      · simp only [if_neg ht, bind, pure, AuthM.bind, AuthM.pure, AuthM.tryCatch, stepFail,
          popFail, throwStore, readStore, getSlot, clearSlot, hfil,
          if_pos (hhead r0 rst hfil), Bool.false_eq_true, reduceIte]

/-- A concrete digest model used for the concrete instances below. -/
def hashC : String → String := fun s => String.append "h:" s

/-! ### The claims -/

/-- C1 counterexample: start from a store already holding the digest of an
older password, with a failure schedule making exactly the first store call
fail -- that call is the read of the password-hash record inside
authenticateAdmin.  The claim says such a call returns absent; the code
instead recovers the failed read as "no hash stored", re-bootstraps, and
returns a token, overwriting the stored password hash. -/
theorem C1_counterexample :
    (authenticateAdmin hashC "newpw"
      ⟨[⟨1, "h:oldpw", "0", "__password_hash__"⟩], 2, none, [true], ["tok1"], 0⟩).1 =
      Except.ok (some "tok1") ∧
    (authenticateAdmin hashC "newpw"
      ⟨[⟨1, "h:oldpw", "0", "__password_hash__"⟩], 2, none, [true], ["tok1"], 0⟩).1 ≠
      Except.ok none ∧
    ((authenticateAdmin hashC "newpw"
      ⟨[⟨1, "h:oldpw", "0", "__password_hash__"⟩], 2, none, [true], ["tok1"], 0⟩).2.store.filter
        fun r => r.user_id == PASSWORD_HASH_USER_ID) =
      [⟨2, "h:newpw", "0", "__password_hash__"⟩] := by
  refine ⟨rfl, ?_, rfl⟩
  decide

/-- C1 (amended): no public operation of the component ever finishes in the
thrown-error state -- every store failure is caught inside the component --
though a failed password-hash read inside authenticateAdmin is recovered as
"no password set" rather than as an absent result. -/
theorem C1_no_store_error_escapes :
    NoThrow isPasswordSet ∧
    (∀ (hashPassword : String → String) (pw : String),
      NoThrow (authenticateAdmin hashPassword pw)) ∧
    (∀ tokArg : Option String, NoThrow (validateSession tokArg)) ∧
    NoThrow resetAdminPassword ∧ NoThrow logoutAdmin ∧ NoThrow cleanupExpiredSessions :=
  ⟨noThrow_isPasswordSet, noThrow_authenticateAdmin, noThrow_validateSession,
   noThrow_resetAdminPassword, noThrow_logoutAdmin, noThrow_cleanupExpiredSessions⟩

/-- C4: whenever the token lookup returns a record whose user_id is the
password-hash sentinel, validateSession clears the local slot and returns
false; the sentinel record is never treated as a valid session. -/
theorem C4_sentinel_never_valid (t : String) (st st₁ : AuthSt)
    (srec : SessionRecord) (rest : List SessionRecord) (ht : t ≠ "")
    (hlook : getAdminSessionBySessionToken t st = (Except.ok (srec :: rest), st₁))
    (hsent : srec.user_id = PASSWORD_HASH_USER_ID) :
    (validateSession (some t) st).1 = Except.ok false ∧
    (validateSession (some t) st).2.slot = none := by
  obtain ⟨store, nid, slot, fails, toks, nowMs⟩ := st
  rcases fails with - | ⟨b, f⟩
  · have hfil : store.filter (fun r => r.session_token == t) = srec :: rest := by
      unfold getAdminSessionBySessionToken at hlook
      simp only [bind, pure, AuthM.bind, AuthM.pure, stepFail, popFail, throwStore, readStore,
        Bool.false_eq_true, reduceIte, Prod.mk.injEq, Except.ok.injEq] at hlook
      exact hlook.1
    rw [validateSession_nil_sentinel t ⟨store, nid, slot, [], toks, nowMs⟩ srec rest rfl ht
      hfil hsent]
    exact ⟨by trivial, by trivial⟩
  · cases b with
    | true =>
      unfold getAdminSessionBySessionToken at hlook
      simp only [bind, pure, AuthM.bind, AuthM.pure, stepFail, popFail, throwStore,
        reduceIte, Prod.mk.injEq] at hlook
      exact absurd hlook.1 (by simp)
    | false =>
      have hfil : store.filter (fun r => r.session_token == t) = srec :: rest := by
        unfold getAdminSessionBySessionToken at hlook
        simp only [bind, pure, AuthM.bind, AuthM.pure, stepFail, popFail, throwStore, readStore,
          Bool.false_eq_true, reduceIte, Prod.mk.injEq, Except.ok.injEq] at hlook
        exact hlook.1
      unfold validateSession getAdminSessionBySessionToken
      simp only [if_neg ht, bind, pure, AuthM.bind, AuthM.pure, AuthM.tryCatch, stepFail,
        popFail, throwStore, readStore, getSlot, clearSlot, hfil, if_pos hsent,
        Bool.false_eq_true, reduceIte]
      exact ⟨by trivial, by trivial⟩

/-- C4 witness at a concrete store: the hash record is returned by the token
lookup for its own stored value, and validation rejects it. -/
theorem C4_witness :
    (validateSession (some "h:pw")
      ⟨[⟨1, "h:pw", "0", "__password_hash__"⟩], 2, some "h:pw", [], [], 0⟩).1 =
      Except.ok false ∧
    (validateSession (some "h:pw")
      ⟨[⟨1, "h:pw", "0", "__password_hash__"⟩], 2, some "h:pw", [], [], 0⟩).2.slot = none :=
  C4_sentinel_never_valid "h:pw"
    ⟨[⟨1, "h:pw", "0", "__password_hash__"⟩], 2, some "h:pw", [], [], 0⟩
    ⟨[⟨1, "h:pw", "0", "__password_hash__"⟩], 2, some "h:pw", [], [], 0⟩
    ⟨1, "h:pw", "0", "__password_hash__"⟩ [] (by decide) (by decide) rfl

/-- C6: authenticateAdmin is a strict no-op returning absent on a blank
password, and on a wrong password when a digest is already stored: the state
(store, slot, counters) is returned unchanged. -/
theorem C6_reject_no_mutation :
    (∀ (hashPassword : String → String) (pw : String) (st : AuthSt),
      (pw = "" ∨ jsTrim pw = "") →
      authenticateAdmin hashPassword pw st = (Except.ok none, st)) ∧
    (∀ (hashPassword : String → String) (pw : String) (st : AuthSt)
      (hrec : SessionRecord) (hrest : List SessionRecord),
      st.fails = [] → jsTrim pw ≠ "" →
      st.store.filter (fun r => r.user_id == PASSWORD_HASH_USER_ID) = hrec :: hrest →
      hashPassword pw ≠ hrec.session_token →
      authenticateAdmin hashPassword pw st = (Except.ok none, st)) :=
  ⟨authenticateAdmin_blank, fun h pw st hrec hrest hf hb hh hne =>
    authenticateAdmin_nil_reject h pw st hrec hrest hf hb hh hne⟩

/-- C6 witness: blank rejection and wrong-password rejection at concrete
stores, both returning the state unchanged. -/
theorem C6_witness :
    authenticateAdmin hashC "   " ⟨[], 0, none, [], ["tokA"], 0⟩ =
      (Except.ok none, ⟨[], 0, none, [], ["tokA"], 0⟩) ∧
    authenticateAdmin hashC "wrong"
      ⟨[⟨1, "h:right", "0", "__password_hash__"⟩, ⟨2, "tokB", "99", "admin"⟩], 3,
        some "tokB", [], ["tokC"], 0⟩ =
      (Except.ok none,
       ⟨[⟨1, "h:right", "0", "__password_hash__"⟩, ⟨2, "tokB", "99", "admin"⟩], 3,
        some "tokB", [], ["tokC"], 0⟩) :=
  ⟨C6_reject_no_mutation.1 hashC "   " ⟨[], 0, none, [], ["tokA"], 0⟩ (Or.inr rfl),
   C6_reject_no_mutation.2 hashC "wrong"
     ⟨[⟨1, "h:right", "0", "__password_hash__"⟩, ⟨2, "tokB", "99", "admin"⟩], 3,
       some "tokB", [], ["tokC"], 0⟩
     ⟨1, "h:right", "0", "__password_hash__"⟩ [] rfl (by decide) (by decide) (by decide)⟩

/-- C8: logoutAdmin always succeeds and always clears the local slot, in
every state (no token present, deletion succeeding, deletion failing), and a
subsequent validateSession with no token argument returns false. -/
theorem C8_logout_always_clears_slot (st : AuthSt) :
    (logoutAdmin st).1 = Except.ok () ∧ (logoutAdmin st).2.slot = none ∧
    (validateSession none (logoutAdmin st).2).1 = Except.ok false := by
  obtain ⟨store, nid, slot, fails, toks, nowMs⟩ := st
  cases slot with
  | none =>
    simp only [logoutAdmin, validateSession, bind, pure, AuthM.bind, AuthM.pure, getSlot,
      clearSlot]
    exact ⟨trivial, trivial, trivial⟩
  | some t =>
    by_cases ht : t = ""
    · subst ht
      simp only [logoutAdmin, validateSession, bind, pure, AuthM.bind, AuthM.pure, getSlot,
        clearSlot, reduceIte]
      exact ⟨trivial, trivial, trivial⟩
    · cases fails with
      | nil =>
        simp only [logoutAdmin, validateSession, bind, pure, AuthM.bind, AuthM.pure,
          AuthM.tryCatch, getSlot, clearSlot, if_neg ht, deleteAdminSessionBySessionToken,
          stepFail, popFail, removeByToken, throwStore, Bool.false_eq_true, reduceIte]
        exact ⟨trivial, trivial, trivial⟩
      | cons b rest =>
        cases b <;>
        · simp only [logoutAdmin, validateSession, bind, pure, AuthM.bind, AuthM.pure,
            AuthM.tryCatch, getSlot, clearSlot, if_neg ht, deleteAdminSessionBySessionToken,
            stepFail, popFail, throwStore, removeByToken, Bool.false_eq_true, reduceIte]
          exact ⟨trivial, trivial, trivial⟩

/-- C9: on a store with pairwise-distinct ids, the cleanup sweep deletes
exactly the non-sentinel records whose parsed expiry is strictly in the past,
leaving the password-hash record and every still-valid record in place. -/
theorem C9_cleanup_exact (st : AuthSt) (hf : st.fails = [])
    (hdist : st.store.Pairwise fun a b => a.id ≠ b.id) :
    cleanupExpiredSessions st =
      (Except.ok (),
       { st with store := st.store.filter fun r =>
          !((!(r.user_id == PASSWORD_HASH_USER_ID)) &&
            jsGtB ((st.nowMs / 1000 : Nat) : Int) (jsParseInt r.expires_at)) }) := by
  rw [cleanupExpiredSessions_nil_run st hf,
    purge_filter_of_distinct st.store
      (fun x => (!(x.user_id == PASSWORD_HASH_USER_ID)) &&
        jsGtB ((st.nowMs / 1000 : Nat) : Int) (jsParseInt x.expires_at)) hdist]

/-- C9 witness: a concrete sweep deletes the one expired admin session and
keeps the hash record and a live session. -/
theorem C9_witness :
    cleanupExpiredSessions
      ⟨[⟨1, "h:pw", "0", "__password_hash__"⟩, ⟨2, "tokOld", "5", "admin"⟩,
        ⟨3, "tokNew", "99999", "admin"⟩], 4, some "tokNew", [], [], 10000⟩ =
      (Except.ok (),
       ⟨[⟨1, "h:pw", "0", "__password_hash__"⟩, ⟨3, "tokNew", "99999", "admin"⟩], 4,
        some "tokNew", [], [], 10000⟩) := by
  rw [C9_cleanup_exact _ rfl (by decide)]
  decide

/-- C10: a non-sentinel record whose expires_at does not parse to an integer
is never treated as expired: validateSession accepts its token at any time,
and cleanupExpiredSessions never deletes it, because now > NaN is false. -/
theorem C10_nan_never_expires :
    (∀ (t : String) (st : AuthSt) (srec : SessionRecord) (rest : List SessionRecord),
      st.fails = [] → t ≠ "" →
      st.store.filter (fun r => r.session_token == t) = srec :: rest →
      srec.user_id ≠ PASSWORD_HASH_USER_ID → jsParseInt srec.expires_at = none →
      validateSession (some t) st = (Except.ok true, st)) ∧
    (∀ (st : AuthSt) (r : SessionRecord),
      st.fails = [] → (st.store.Pairwise fun a b => a.id ≠ b.id) → r ∈ st.store →
      jsParseInt r.expires_at = none →
      r ∈ (cleanupExpiredSessions st).2.store) := by
  constructor
  · intro t st srec rest hf ht hlook hns hparse
    exact validateSession_nil_live t st srec rest hf ht hlook hns (by rw [hparse]; rfl)
  · intro st r hf hdist hmem hparse
    rw [cleanupExpiredSessions_nil_run st hf,
      purge_filter_of_distinct st.store
        (fun x => (!(x.user_id == PASSWORD_HASH_USER_ID)) &&
          jsGtB ((st.nowMs / 1000 : Nat) : Int) (jsParseInt x.expires_at)) hdist]
    exact List.mem_filter.mpr ⟨hmem, by rw [hparse]; simp [jsGtB]⟩

/-- C10 witness: a session with a non-numeric expiry validates as true at a
late clock time and survives the sweep. -/
theorem C10_witness :
    validateSession (some "tokX")
      ⟨[⟨1, "tokX", "soon", "admin"⟩], 2, none, [], [], 999999000⟩ =
      (Except.ok true, ⟨[⟨1, "tokX", "soon", "admin"⟩], 2, none, [], [], 999999000⟩) ∧
    (⟨1, "tokX", "soon", "admin"⟩ : SessionRecord) ∈
      (cleanupExpiredSessions
        ⟨[⟨1, "tokX", "soon", "admin"⟩], 2, none, [], [], 999999000⟩).2.store :=
  ⟨C10_nan_never_expires.1 "tokX" ⟨[⟨1, "tokX", "soon", "admin"⟩], 2, none, [], [], 999999000⟩
      ⟨1, "tokX", "soon", "admin"⟩ [] rfl (by decide) rfl (by decide) (by decide),
   C10_nan_never_expires.2 ⟨[⟨1, "tokX", "soon", "admin"⟩], 2, none, [], [], 999999000⟩
      ⟨1, "tokX", "soon", "admin"⟩ rfl (by decide) (by decide) (by decide)⟩

/-! ### Store shape after a bootstrap login -/

theorem admin_not_sentinel : (("admin" : String) == PASSWORD_HASH_USER_ID) = false := by decide

theorem sentinel_not_admin : ((PASSWORD_HASH_USER_ID : String) == "admin") = false := by decide

theorem sentinel_beq_self : ((PASSWORD_HASH_USER_ID : String) == PASSWORD_HASH_USER_ID) = true := by
  decide

/-- After a bootstrap login on a store with no password-hash record and ids
below the counter, the only sentinel record left is the fresh hash record. -/
theorem bootstrap_store_sentinel_filter (L : List SessionRecord) (nid nid₂ : Nat)
    (hsh tok : String) (nowMs : Nat)
    (hnohash : L.filter (fun r => r.user_id == PASSWORD_HASH_USER_ID) = [])
    (hid : ∀ r ∈ L, r.id < nid) :
    ((((L ++ [hashRecord nid hsh]).filter fun r =>
        !((L ++ [hashRecord nid hsh]).any fun x =>
          (!(x.user_id == PASSWORD_HASH_USER_ID)) && r.id == x.id)) ++
      [adminRecord nid₂ tok nowMs]).filter
        fun r => r.user_id == PASSWORD_HASH_USER_ID) = [hashRecord nid hsh] := by
  have hsent_false : ∀ a ∈ L, (a.user_id == PASSWORD_HASH_USER_ID) = false := by
    intro a ha
    have h := List.filter_eq_nil_iff.mp hnohash a ha
    simpa using h
  have hHsurv : ((L ++ [hashRecord nid hsh]).any fun x =>
      (!(x.user_id == PASSWORD_HASH_USER_ID)) && (hashRecord nid hsh).id == x.id) = false := by
    apply List.any_eq_false.mpr
    intro x hx
    rcases List.mem_append.mp hx with hxL | hxH
    · have hne : ((hashRecord nid hsh).id == x.id) = false := by
        simp only [hashRecord, beq_eq_false_iff_ne, ne_eq]
        intro he
        have := hid x hxL
        omega
      simp [hne]
    · simp only [List.mem_singleton] at hxH
      subst hxH
      simp [hashRecord, sentinel_beq_self]
  simp only [List.filter_append]
  have h1 : ((L.filter fun r => !((L ++ [hashRecord nid hsh]).any fun x =>
      (!(x.user_id == PASSWORD_HASH_USER_ID)) && r.id == x.id)).filter
      fun r => r.user_id == PASSWORD_HASH_USER_ID) = [] := by
    apply List.filter_eq_nil_iff.mpr
    intro a ha
    simp [hsent_false a (List.mem_filter.mp ha).1]
  have h2 : (([hashRecord nid hsh].filter fun r => !((L ++ [hashRecord nid hsh]).any fun x =>
      (!(x.user_id == PASSWORD_HASH_USER_ID)) && r.id == x.id)).filter
      fun r => r.user_id == PASSWORD_HASH_USER_ID) = [hashRecord nid hsh] := by
    simp only [List.filter_cons, List.filter_nil, hHsurv, Bool.not_false, reduceIte]
    simp [hashRecord, sentinel_beq_self]
  have h3 : ([adminRecord nid₂ tok nowMs].filter
      fun r => r.user_id == PASSWORD_HASH_USER_ID) = [] := by
    simp [adminRecord, admin_not_sentinel]
  rw [h1, h2, h3, List.nil_append, List.append_nil]


/-- C2 counterexample: the claim quantifies over every password string, but
the empty password is rejected before any store access on the empty store --
no digest is persisted, no token returned, no session created. -/
theorem C2_counterexample :
    authenticateAdmin hashC "" ⟨[], 0, none, [], ["tokA"], 0⟩ =
      (Except.ok none, ⟨[], 0, none, [], ["tokA"], 0⟩) := rfl

/-- C2 (amended): for every password that is neither empty nor all
whitespace, the first-ever authenticateAdmin call on an empty store persists
the digest as the password-hash record, returns the fresh token, makes
isPasswordSet true afterwards, and leaves exactly one admin session record. -/
theorem C2_first_login_bootstrap (hashPassword : String → String) (pw : String)
    (st : AuthSt) (tok : String) (rest : List String)
    (hf : st.fails = []) (hb : jsTrim pw ≠ "") (hempty : st.store = [])
    (htok : st.tokens = tok :: rest) :
    authenticateAdmin hashPassword pw st =
      (Except.ok (some tok),
       { st with
          store := [hashRecord st.nextId (hashPassword pw),
                    adminRecord (st.nextId + 1) tok st.nowMs],
          nextId := st.nextId + 2, slot := some tok, tokens := rest }) ∧
    (isPasswordSet { st with
          store := [hashRecord st.nextId (hashPassword pw),
                    adminRecord (st.nextId + 1) tok st.nowMs],
          nextId := st.nextId + 2, slot := some tok, tokens := rest }).1 = Except.ok true ∧
    (({ st with
          store := [hashRecord st.nextId (hashPassword pw),
                    adminRecord (st.nextId + 1) tok st.nowMs],
          nextId := st.nextId + 2, slot := some tok, tokens := rest } : AuthSt).store.filter
        fun r => r.user_id == "admin").length = 1 := by
  refine ⟨?_, ?_, ?_⟩
  · have hrun := authenticateAdmin_nil_bootstrap hashPassword pw st tok rest hf hb
      (by rw [hempty]; rfl) htok
    rw [hrun, hempty]
    simp [hashRecord, adminRecord, sentinel_beq_self]
  · unfold isPasswordSet getStoredPasswordHash getAdminSessionByUserId
    simp [bind, pure, AuthM.bind, AuthM.pure, AuthM.tryCatch, stepFail, popFail, throwStore,
      readStore, hf, hashRecord, adminRecord, sentinel_beq_self, admin_not_sentinel]
  · simp [hashRecord, adminRecord, admin_not_sentinel, sentinel_not_admin]

/-- C2 witness: concrete first login on an empty store. -/
theorem C2_witness :
    authenticateAdmin hashC "secret" ⟨[], 5, none, [], ["tokA"], 1000⟩ =
      (Except.ok (some "tokA"),
       ⟨[hashRecord 5 (hashC "secret"), adminRecord 6 "tokA" 1000], 7, some "tokA",
        [], [], 1000⟩) ∧
    (isPasswordSet ⟨[hashRecord 5 (hashC "secret"), adminRecord 6 "tokA" 1000], 7,
        some "tokA", [], [], 1000⟩).1 = Except.ok true ∧
    ((⟨[hashRecord 5 (hashC "secret"), adminRecord 6 "tokA" 1000], 7, some "tokA",
        [], [], 1000⟩ : AuthSt).store.filter fun r => r.user_id == "admin").length = 1 :=
  C2_first_login_bootstrap hashC "secret" ⟨[], 5, none, [], ["tokA"], 1000⟩ "tokA" []
    rfl (by decide) rfl rfl

/-- C7: resetAdminPassword on a working store deletes every password-hash
record and performs the full logout; afterwards isPasswordSet is false, and a
subsequent authenticateAdmin with any non-blank password succeeds and makes
that password the stored admin password (its digest becomes the only
password-hash record). -/
theorem C7_reset_password (st : AuthSt) (hf : st.fails = [])
    (hid : ∀ r ∈ st.store, r.id < st.nextId) :
    (resetAdminPassword st).1 = Except.ok true ∧
    (resetAdminPassword st).2.slot = none ∧
    ((resetAdminPassword st).2.store.filter fun r => r.user_id == PASSWORD_HASH_USER_ID) = [] ∧
    (isPasswordSet (resetAdminPassword st).2).1 = Except.ok false ∧
    ∀ (hashPassword : String → String) (pw tok : String) (rest : List String),
      jsTrim pw ≠ "" → (resetAdminPassword st).2.tokens = tok :: rest →
      (authenticateAdmin hashPassword pw (resetAdminPassword st).2).1 =
        Except.ok (some tok) ∧
      ((authenticateAdmin hashPassword pw (resetAdminPassword st).2).2.store.filter
        fun r => r.user_id == PASSWORD_HASH_USER_ID) =
        [hashRecord (resetAdminPassword st).2.nextId (hashPassword pw)] := by
  obtain ⟨stR, hrun, hslot, hfR, hnid, htoks, hnow, hsub, hnohash⟩ := resetAdminPassword_nil st hf
  rw [hrun]
  dsimp only
  refine ⟨rfl, hslot, hnohash, ?_, ?_⟩
  · rw [isPasswordSet_nil_none stR hfR hnohash]
  · intro hashPassword pw tok rest hb htokR
    have hidR : ∀ r ∈ stR.store, r.id < stR.nextId := by
      intro r hr
      rw [hnid]
      exact hid r (hsub r hr)
    have hrun2 := authenticateAdmin_nil_bootstrap hashPassword pw stR tok rest hfR hb
      hnohash htokR
    rw [hrun2]
    dsimp only
    exact ⟨rfl, bootstrap_store_sentinel_filter stR.store stR.nextId (stR.nextId + 1)
      (hashPassword pw) tok stR.nowMs hnohash hidR⟩

/-- C7 witness: concrete reset on a store holding a hash record and a live
session, followed by a bootstrap with a new password. -/
theorem C7_witness :
    (resetAdminPassword
      ⟨[⟨1, "h:old", "0", "__password_hash__"⟩, ⟨2, "tokB", "99", "admin"⟩], 3,
        some "tokB", [], ["tokC"], 0⟩).1 = Except.ok true ∧
    (resetAdminPassword
      ⟨[⟨1, "h:old", "0", "__password_hash__"⟩, ⟨2, "tokB", "99", "admin"⟩], 3,
        some "tokB", [], ["tokC"], 0⟩).2.slot = none ∧
    ((resetAdminPassword
      ⟨[⟨1, "h:old", "0", "__password_hash__"⟩, ⟨2, "tokB", "99", "admin"⟩], 3,
        some "tokB", [], ["tokC"], 0⟩).2.store.filter
          fun r => r.user_id == PASSWORD_HASH_USER_ID) = [] ∧
    (isPasswordSet (resetAdminPassword
      ⟨[⟨1, "h:old", "0", "__password_hash__"⟩, ⟨2, "tokB", "99", "admin"⟩], 3,
        some "tokB", [], ["tokC"], 0⟩).2).1 = Except.ok false ∧
    (authenticateAdmin hashC "newpw" (resetAdminPassword
      ⟨[⟨1, "h:old", "0", "__password_hash__"⟩, ⟨2, "tokB", "99", "admin"⟩], 3,
        some "tokB", [], ["tokC"], 0⟩).2).1 = Except.ok (some "tokC") ∧
    ((authenticateAdmin hashC "newpw" (resetAdminPassword
      ⟨[⟨1, "h:old", "0", "__password_hash__"⟩, ⟨2, "tokB", "99", "admin"⟩], 3,
        some "tokB", [], ["tokC"], 0⟩).2).2.store.filter
          fun r => r.user_id == PASSWORD_HASH_USER_ID) =
      [hashRecord (resetAdminPassword
        ⟨[⟨1, "h:old", "0", "__password_hash__"⟩, ⟨2, "tokB", "99", "admin"⟩], 3,
          some "tokB", [], ["tokC"], 0⟩).2.nextId (hashC "newpw")] := by
  have h := C7_reset_password
    ⟨[⟨1, "h:old", "0", "__password_hash__"⟩, ⟨2, "tokB", "99", "admin"⟩], 3,
      some "tokB", [], ["tokC"], 0⟩ rfl (by decide)
  have h5 := h.2.2.2.2 hashC "newpw" "tokC" [] (by decide) (by decide)
  exact ⟨h.1, h.2.1, h.2.2.1, h.2.2.2.1, h5.1, h5.2⟩

/-- A successful authenticateAdmin run always finishes through a successful
createAdminSession run. -/
theorem authenticateAdmin_ok_inv {hashPassword : String → String} {pw : String}
    {st st' : AuthSt} {tok : String}
    (h : authenticateAdmin hashPassword pw st = (Except.ok (some tok), st')) :
    ∃ sMid : AuthSt, createAdminSession sMid = (Except.ok (some tok), st') := by
  unfold authenticateAdmin at h
  by_cases hb : pw = "" ∨ jsTrim pw = ""
  · rw [if_pos hb] at h
    exact absurd (congrArg Prod.fst h) (by simp [pure, AuthM.pure])
  · rw [if_neg hb] at h
    obtain ⟨r, s₁, hg, h⟩ := AuthM.bind_ok_inv h
    cases r with
    | none =>
      obtain ⟨b, s₂, hsp, h⟩ := AuthM.bind_ok_inv h
      cases b with
      | true => exact ⟨s₂, h⟩
      | false => exact absurd (congrArg Prod.fst h) (by simp [pure, AuthM.pure])
    | some sh =>
      have h' : (if hashPassword pw ≠ sh then AuthM.pure none else createAdminSession) s₁ =
          (Except.ok (some tok), st') := h
      by_cases hne : hashPassword pw ≠ sh
      · rw [if_pos hne] at h'
        exact absurd (congrArg Prod.fst h') (by simp [AuthM.pure])
      · rw [if_neg hne] at h'
        exact ⟨s₁, h'⟩

/-- C3: after every successful authenticateAdmin call, whatever the failure
schedule, at most one non-sentinel session record exists in the store, and
validating any token other than the fresh one returns false. -/
theorem C3_single_session (hashPassword : String → String) (pw : String)
    (st st' : AuthSt) (tok : String)
    (h : authenticateAdmin hashPassword pw st = (Except.ok (some tok), st')) :
    ((st'.store.filter fun r => !(r.user_id == PASSWORD_HASH_USER_ID)).length ≤ 1) ∧
    ∀ tOld : String, tOld ≠ "" → tOld ≠ tok →
      (validateSession (some tOld) st').1 = Except.ok false := by
  obtain ⟨sMid, hCAS⟩ := authenticateAdmin_ok_inv h
  obtain ⟨hslot, hnow, hfails, S, nid, hstore, hS⟩ := createAdminSession_ok hCAS
  constructor
  · rw [hstore, List.filter_append]
    have h1 : (S.filter fun r => !(r.user_id == PASSWORD_HASH_USER_ID)) = [] :=
      List.filter_eq_nil_iff.mpr fun a ha => by simp [(hS a ha).1]
    rw [h1]
    simp [admin_not_sentinel]
  · intro tOld hne htokne
    apply validateSession_false_of_no_match tOld st' hne
    intro r hr htk
    rw [hstore] at hr
    rcases List.mem_append.mp hr with hrS | hrA
    · exact (hS r hrS).1
    · simp only [List.mem_singleton] at hrA
      subst hrA
      have hte : tok = tOld := htk
      exact (htokne hte.symm).elim

/-- C3 witness: concrete first login, then a different token is rejected. -/
theorem C3_witness :
    (((⟨[⟨0, "h:pw", "0", "__password_hash__"⟩, ⟨1, "tokA", "86400", "admin"⟩], 2,
        some "tokA", [], [], 0⟩ : AuthSt).store.filter
      fun r => !(r.user_id == PASSWORD_HASH_USER_ID)).length ≤ 1) ∧
    (validateSession (some "tokB")
      ⟨[⟨0, "h:pw", "0", "__password_hash__"⟩, ⟨1, "tokA", "86400", "admin"⟩], 2,
        some "tokA", [], [], 0⟩).1 = Except.ok false := by
  have h := C3_single_session hashC "pw" ⟨[], 0, none, [], ["tokA"], 0⟩
    ⟨[⟨0, "h:pw", "0", "__password_hash__"⟩, ⟨1, "tokA", "86400", "admin"⟩], 2,
      some "tokA", [], [], 0⟩ "tokA" (by decide)
  exact ⟨h.1, h.2 "tokB" (by decide) (by decide)⟩

/-- A session created at time nowMs with the 24-hour duration is not already
expired at time nowMs. -/
theorem fresh_admin_session_not_expired (nowMs : Nat) :
    jsGtB ((nowMs / 1000 : Nat) : Int)
      (jsParseInt (natToDecStr ((nowMs + SESSION_DURATION_MS) / 1000))) = false := by
  rw [jsParseInt_natToDecStr]
  unfold jsGtB
  simp only [decide_eq_false_iff_not, not_lt]
  exact_mod_cast Nat.div_le_div_right (Nat.le_add_right _ _)

/-- Looking the fresh token up in a store whose other records all carry
different tokens returns exactly the fresh admin record. -/
theorem fresh_token_lookup (M : List SessionRecord) (nid : Nat) (tok : String) (nowMs : Nat)
    (hM : ∀ r ∈ M, r.session_token ≠ tok) :
    ((M ++ [adminRecord nid tok nowMs]).filter fun r => r.session_token == tok) =
      adminRecord nid tok nowMs :: [] := by
  rw [List.filter_append]
  have h1 : (M.filter fun r => r.session_token == tok) = [] :=
    List.filter_eq_nil_iff.mpr fun a ha => by simp [hM a ha]
  rw [h1, List.nil_append]
  simp [adminRecord]

/-- Bootstrap on an exhausted token schedule returns the empty token. -/
theorem authenticateAdmin_nil_bootstrap_noTokens (hashPassword : String → String)
    (pw : String) (st : AuthSt) (hf : st.fails = []) (hb : jsTrim pw ≠ "")
    (hnohash : st.store.filter (fun r => r.user_id == PASSWORD_HASH_USER_ID) = [])
    (htl : st.tokens = []) :
    (authenticateAdmin hashPassword pw st).1 = Except.ok (some "") := by
  obtain ⟨store, nid, slot, fails, toks, nowMs⟩ := st
  simp only at hf htl hnohash
  subst hf
  subst htl
  unfold authenticateAdmin getStoredPasswordHash storePasswordHash createAdminSession
    getAdminSessionByUserId getAllAdminSession insertAdminSession
  simp only [if_neg (blank_check_false hb), bind, pure, AuthM.bind, AuthM.pure, AuthM.tryCatch,
    stepFail, popFail, throwStore, readStore, readNowMs, generateSessionToken, appendRecord,
    setSlot, hnohash, deleteWhere, deleteWhere_nil_run, reduceIte, Bool.false_eq_true]

/-- Re-login on an exhausted token schedule returns the empty token. -/
theorem authenticateAdmin_nil_verify_noTokens (hashPassword : String → String)
    (pw : String) (st : AuthSt) (hrec : SessionRecord) (hrest : List SessionRecord)
    (hf : st.fails = []) (hb : jsTrim pw ≠ "")
    (hhash : st.store.filter (fun r => r.user_id == PASSWORD_HASH_USER_ID) = hrec :: hrest)
    (hmatch : hashPassword pw = hrec.session_token)
    (htl : st.tokens = []) :
    (authenticateAdmin hashPassword pw st).1 = Except.ok (some "") := by
  obtain ⟨store, nid, slot, fails, toks, nowMs⟩ := st
  simp only at hf htl hhash
  subst hf
  subst htl
  have hnn : ¬(hashPassword pw ≠ hrec.session_token) := fun h => h hmatch
  unfold authenticateAdmin getStoredPasswordHash createAdminSession
    getAdminSessionByUserId getAllAdminSession insertAdminSession
  simp only [if_neg (blank_check_false hb), bind, pure, AuthM.bind, AuthM.pure, AuthM.tryCatch,
    stepFail, popFail, throwStore, readStore, readNowMs, generateSessionToken, appendRecord,
    setSlot, hhash, if_neg hnn, deleteWhere_nil_run, reduceIte, Bool.false_eq_true]

theorem adminRecord_not_sentinel (nid : Nat) (tok : String) (nowMs : Nat) :
    (adminRecord nid tok nowMs).user_id ≠ PASSWORD_HASH_USER_ID := by
  simp only [adminRecord]
  decide

/-- C5: for a token found as a non-sentinel record on a working store, if the
parsed expiry is strictly before the current time the record is deleted, the
slot cleared and false returned; otherwise true is returned and nothing
changes.  In particular a token issued by a successful login validates as
true immediately afterwards. -/
theorem C5_validate_expiry :
    (∀ (t : String) (st : AuthSt) (srec : SessionRecord) (rest : List SessionRecord),
      st.fails = [] → t ≠ "" →
      st.store.filter (fun r => r.session_token == t) = srec :: rest →
      srec.user_id ≠ PASSWORD_HASH_USER_ID →
      ((jsGtB ((st.nowMs / 1000 : Nat) : Int) (jsParseInt srec.expires_at) = true →
        validateSession (some t) st =
          (Except.ok false,
           { st with store := st.store.filter fun r => !(r.id == srec.id), slot := none })) ∧
       (jsGtB ((st.nowMs / 1000 : Nat) : Int) (jsParseInt srec.expires_at) = false →
        validateSession (some t) st = (Except.ok true, st)))) ∧
    (∀ (hashPassword : String → String) (pw tok : String) (st st' : AuthSt),
      st.fails = [] → tok ≠ "" → hashPassword pw ≠ tok →
      (∀ r ∈ st.store, r.session_token ≠ tok) →
      authenticateAdmin hashPassword pw st = (Except.ok (some tok), st') →
      validateSession (some tok) st' = (Except.ok true, st')) := by
  constructor
  · intro t st srec rest hf ht hlook hns
    exact ⟨fun hexp => validateSession_nil_expired t st srec rest hf ht hlook hns hexp,
           fun hexp => validateSession_nil_live t st srec rest hf ht hlook hns hexp⟩
  · intro hashPassword pw tok st st' hf htokne hhne hold hAuth
    by_cases hb : pw = "" ∨ jsTrim pw = ""
    · rw [authenticateAdmin_blank hashPassword pw st hb] at hAuth
      simp only [Prod.mk.injEq, Except.ok.injEq] at hAuth
      exact absurd hAuth.1 (by simp)
    · have hbt : jsTrim pw ≠ "" := fun hc => hb (Or.inr hc)
      rcases htl : st.tokens with - | ⟨t0, ts⟩
      · rcases hsent : st.store.filter (fun r => r.user_id == PASSWORD_HASH_USER_ID) with
          - | ⟨hrec, hrest⟩
        · have h0 := authenticateAdmin_nil_bootstrap_noTokens hashPassword pw st hf hbt
            hsent htl
          rw [hAuth] at h0
          simp only [Except.ok.injEq, Option.some.injEq] at h0
          exact absurd h0 htokne
        · by_cases hdg : hashPassword pw = hrec.session_token
          · have h0 := authenticateAdmin_nil_verify_noTokens hashPassword pw st hrec hrest hf
              hbt hsent hdg htl
            rw [hAuth] at h0
            simp only [Except.ok.injEq, Option.some.injEq] at h0
            exact absurd h0 htokne
          · rw [authenticateAdmin_nil_reject hashPassword pw st hrec hrest hf hbt hsent hdg]
              at hAuth
            simp only [Prod.mk.injEq, Except.ok.injEq] at hAuth
            exact absurd hAuth.1 (by simp)
      · rcases hsent : st.store.filter (fun r => r.user_id == PASSWORD_HASH_USER_ID) with
          - | ⟨hrec, hrest⟩
        · have hrun := authenticateAdmin_nil_bootstrap hashPassword pw st t0 ts hf hbt
            hsent htl
          rw [hrun] at hAuth
          simp only [Prod.mk.injEq, Except.ok.injEq, Option.some.injEq] at hAuth
          obtain ⟨ht0, hst⟩ := hAuth
          subst ht0
          subst hst
          apply validateSession_nil_live t0 _ (adminRecord (st.nextId + 1) t0 st.nowMs) []
          · exact hf
          · exact htokne
          · apply fresh_token_lookup
            intro r hr
            obtain ⟨hrmem, -⟩ := List.mem_filter.mp hr
            rcases List.mem_append.mp hrmem with hrold | hrH
            · exact hold r hrold
            · simp only [List.mem_singleton] at hrH
              subst hrH
              exact fun he => hhne he
          · exact adminRecord_not_sentinel _ _ _
          · exact fresh_admin_session_not_expired st.nowMs
        · by_cases hdg : hashPassword pw = hrec.session_token
          · have hrun := authenticateAdmin_nil_verify hashPassword pw st t0 ts hrec hrest hf
              hbt hsent hdg htl
            rw [hrun] at hAuth
            simp only [Prod.mk.injEq, Except.ok.injEq, Option.some.injEq] at hAuth
            obtain ⟨ht0, hst⟩ := hAuth
            subst ht0
            subst hst
            apply validateSession_nil_live t0 _ (adminRecord st.nextId t0 st.nowMs) []
            · exact hf
            · exact htokne
            · apply fresh_token_lookup
              intro r hr
              obtain ⟨hrmem, -⟩ := List.mem_filter.mp hr
              exact hold r hrmem
            · exact adminRecord_not_sentinel _ _ _
            · exact fresh_admin_session_not_expired st.nowMs
          · rw [authenticateAdmin_nil_reject hashPassword pw st hrec hrest hf hbt hsent hdg]
              at hAuth
            simp only [Prod.mk.injEq, Except.ok.injEq] at hAuth
            exact absurd hAuth.1 (by simp)

/-- C5 witness: a concrete expired session is deleted and rejected, and the
token of a concrete fresh login validates as true. -/
theorem C5_witness :
    validateSession (some "tokE")
      ⟨[⟨1, "tokE", "5", "admin"⟩], 2, some "tokE", [], [], 10000⟩ =
      (Except.ok false, ⟨[], 2, none, [], [], 10000⟩) ∧
    validateSession (some "tokA")
      ⟨[⟨0, "h:pw", "0", "__password_hash__"⟩, ⟨1, "tokA", "86400", "admin"⟩], 2,
        some "tokA", [], [], 0⟩ =
      (Except.ok true,
       ⟨[⟨0, "h:pw", "0", "__password_hash__"⟩, ⟨1, "tokA", "86400", "admin"⟩], 2,
        some "tokA", [], [], 0⟩) := by
  constructor
  · exact (C5_validate_expiry.1 "tokE"
      ⟨[⟨1, "tokE", "5", "admin"⟩], 2, some "tokE", [], [], 10000⟩
      ⟨1, "tokE", "5", "admin"⟩ [] rfl (by decide) (by decide) (by decide)).1 (by decide)
  · exact C5_validate_expiry.2 hashC "pw" "tokA" ⟨[], 0, none, [], ["tokA"], 0⟩
      ⟨[⟨0, "h:pw", "0", "__password_hash__"⟩, ⟨1, "tokA", "86400", "admin"⟩], 2,
        some "tokA", [], [], 0⟩
      rfl (by decide) (by decide) (by decide) (by decide)
